import Mathlib

/-!
Shallow embedding of the Cpp23Particles simulation kernel
(src/particle.cpp, src/emitter.cpp, src/system.cpp, src/system.hpp).

Conventions of the embedding:
* float arithmetic is modelled exactly over ℚ;
* `static_cast<int>` on a float value truncates toward zero and is
  modelled by `ctrunc`;
* transcendental float functions (`std::cos`, `std::sin`, `std::sqrt`)
  are threaded as explicit function parameters `tcos tsin rsqrt : ℚ → ℚ`,
  so every definition stays executable over ℚ;
* the mt19937 random draws consumed by `Emitter::emitParticle` are
  modelled by an oracle `rng : ℕ → Draws` carried by each emitter
  (one `Draws` record consumed per emitted particle);
* the concurrent worker phase is modelled by its sequential single-thread
  schedule (indices processed in increasing order), which is exactly the
  execution with thread_count = 1; the worker index-range arithmetic of
  `ParticleSystem::workerFunction` is embedded separately
  (`workerStart` / `workerEnd`).
-/

/-- C-style truncation toward zero of a rational value,
as performed by `static_cast<int>` on a float. -/
def ctrunc (x : ℚ) : ℤ := if 0 ≤ x then ⌊x⌋ else -⌊-x⌋

/-- Particle record, from `struct Particle` in src/particle.hpp.
Color channels are modelled as ℕ. -/
structure Particle where
  x : ℚ := 0
  y : ℚ := 0
  vx : ℚ := 0
  vy : ℚ := 0
  ax : ℚ := 0
  ay : ℚ := 0
  lifetime : ℚ := 0
  max_lifetime : ℚ := 0
  size : ℚ := 0
  r : ℕ := 0
  g : ℕ := 0
  b : ℕ := 0
  a : ℕ := 0
  active : Bool := false
  colorful_mode : Bool := false
deriving DecidableEq

/-- Embedding of `Particle::applyForce` (src/particle.cpp): accumulates
the given force into the particle's acceleration. -/
def Particle.applyForce (p : Particle) (fx fy : ℚ) : Particle :=
  { p with ax := p.ax + fx, ay := p.ay + fy }

/-- Embedding of `Particle::update` (src/particle.cpp): early return on an
inactive particle; otherwise velocity += acceleration*dt, position +=
new velocity*dt, lifetime -= dt, deactivate when the new lifetime is ≤ 0,
and reset acceleration to zero. -/
def Particle.update (p : Particle) (dt : ℚ) : Particle :=
  if !p.active then p
  else
    let vx' := p.vx + p.ax * dt
    let vy' := p.vy + p.ay * dt
    let x' := p.x + vx' * dt
    let y' := p.y + vy' * dt
    let lifetime' := p.lifetime - dt
    { p with
      vx := vx', vy := vy', x := x', y := y',
      lifetime := lifetime',
      active := if lifetime' ≤ 0 then false else p.active,
      ax := 0, ay := 0 }

/-- Emitter shape variants, from `enum class EmitterType` in src/emitter.hpp. -/
inductive EmitterType where
  | Point
  | Circle
  | Line
  | Spiral
deriving DecidableEq

/-- Emitter configuration, from `struct EmitterSettings` in src/emitter.hpp.
The spiral phase state lives inside the settings, as in the source. -/
structure EmitterSettings where
  x : ℚ := 0
  y : ℚ := 0
  rate : ℚ := 0
  particle_speed : ℚ := 0
  particle_size : ℚ := 0
  particle_lifetime : ℚ := 0
  type : EmitterType := EmitterType.Point
  min_r : ℕ := 0
  max_r : ℕ := 0
  min_g : ℕ := 0
  max_g : ℕ := 0
  min_b : ℕ := 0
  max_b : ℕ := 0
  min_a : ℕ := 0
  max_a : ℕ := 0
  colorful_mode : Bool := false
  spiral_angle : ℚ := 0
  spiral_radius : ℚ := 5

/-- Random draws consumed by one `Emitter::emitParticle` call.
The uniform distributions of the source are abstracted into oracle-supplied
values (color draws reduced into the configured range by modular
arithmetic; real draws supplied directly). -/
structure Draws where
  dr : ℕ := 0
  dg : ℕ := 0
  db : ℕ := 0
  da : ℕ := 0
  angle : ℚ := 0
  radius : ℚ := 0
  linePos : ℚ := 0
  lineVel : ℚ := 0
  angleSpeed : ℚ := 0

/-- Emitter state, from `class Emitter` in src/emitter.hpp: settings, the
fractional-emission accumulator, the random generator (modelled as an
oracle plus a cursor), and the modifier list. -/
structure Emitter where
  settings : EmitterSettings
  time_accumulator : ℚ := 0
  rng : ℕ → Draws := fun _ => {}
  rngPos : ℕ := 0
  modifiers : List (Particle → Particle) := []

/-- Embedding of `Emitter::emitParticle` (src/emitter.cpp): reinitializes
the given slot (active, lifetimes, size, colors from the configured ranges,
shape-specific position/velocity), consumes one draw, and for the Spiral
shape advances the persistent spiral phase in the settings. -/
def Emitter.emitParticle (tcos tsin : ℚ → ℚ) (e : Emitter) (p : Particle) :
    Emitter × Particle :=
  let d := e.rng e.rngPos
  let s := e.settings
  let p0 : Particle :=
    { p with
      active := true,
      lifetime := s.particle_lifetime,
      max_lifetime := s.particle_lifetime,
      size := s.particle_size,
      colorful_mode := s.colorful_mode,
      r := s.min_r + d.dr % (s.max_r - s.min_r + 1),
      g := s.min_g + d.dg % (s.max_g - s.min_g + 1),
      b := s.min_b + d.db % (s.max_b - s.min_b + 1),
      a := s.min_a + d.da % (s.max_a - s.min_a + 1) }
  let e' : Emitter := { e with rngPos := e.rngPos + 1 }
  match s.type with
  | EmitterType.Point =>
      (e', { p0 with
             x := s.x, y := s.y,
             vx := tcos d.angle * s.particle_speed,
             vy := tsin d.angle * s.particle_speed,
             ax := 0, ay := 0 })
  | EmitterType.Circle =>
      (e', { p0 with
             x := s.x + tcos d.angle * d.radius,
             y := s.y + tsin d.angle * d.radius,
             vx := tcos d.angle * s.particle_speed,
             vy := tsin d.angle * s.particle_speed,
             ax := 0, ay := 0 })
  | EmitterType.Line =>
      (e', { p0 with
             x := s.x + d.linePos, y := s.y,
             vx := d.lineVel * s.particle_speed,
             vy := -1 * s.particle_speed,
             ax := 0, ay := 0 })
  | EmitterType.Spiral =>
      let angle := s.spiral_angle
      let radius := d.radius + s.spiral_radius
      let newRadius := s.spiral_radius + 1/20
      let e'' : Emitter :=
        { e' with settings :=
          { s with
            spiral_angle := s.spiral_angle + 1/10,
            spiral_radius := if 100 < newRadius then 5 else newRadius } }
      (e'', { p0 with
              x := s.x + tcos angle * radius,
              y := s.y + tsin angle * radius,
              vx := (-tsin angle * d.angleSpeed + tcos angle * (1/2)) * s.particle_speed,
              vy := (tcos angle * d.angleSpeed + tsin angle * (1/2)) * s.particle_speed,
              ax := 0, ay := 0 })

/-- Linear scan of the inner loop of `Emitter::update` (src/emitter.cpp):
walk the pool, emit into the first inactive slot (applying the modifiers)
and stop there; `none` when every slot is active. -/
def Emitter.emitScan (tcos tsin : ℚ → ℚ) (e : Emitter) :
    List Particle → Option (Emitter × List Particle)
  | [] => none
  | p :: rest =>
    if !p.active then
      let ep := e.emitParticle tcos tsin p
      let p' := ep.1.modifiers.foldl (fun q m => m q) ep.2
      some (ep.1, p' :: rest)
    else
      (Emitter.emitScan tcos tsin e rest).map (fun r => (r.1, p :: r.2))

/-- Outer emission loop of `Emitter::update` (src/emitter.cpp): for each of
the `whole` units run the linear scan; a unit whose scan finds no inactive
slot is silently dropped. Returns the emitter, the updated pool and the
count actually emitted. -/
def Emitter.emitLoop (tcos tsin : ℚ → ℚ) :
    ℕ → Emitter → List Particle → ℕ → Emitter × List Particle × ℕ
  | 0, e, ps, n => (e, ps, n)
  | k + 1, e, ps, n =>
    match Emitter.emitScan tcos tsin e ps with
    | none => Emitter.emitLoop tcos tsin k e ps n
    | some r => Emitter.emitLoop tcos tsin k r.1 r.2 (n + 1)

/-- Embedding of `Emitter::update` (src/emitter.cpp). Note the source adds
`dt` into `time_accumulator` first and then computes
`rate*dt + time_accumulator`; the whole part is truncated toward zero and
the remainder becomes the new accumulator. -/
def Emitter.update (tcos tsin : ℚ → ℚ) (e : Emitter) (dt : ℚ)
    (ps : List Particle) : Emitter × List Particle × ℕ :=
  let acc := e.time_accumulator + dt
  let particles_to_emit := e.settings.rate * dt + acc
  let whole := ctrunc particles_to_emit
  let e' : Emitter := { e with time_accumulator := particles_to_emit - whole }
  Emitter.emitLoop tcos tsin whole.toNat e' ps 0

/-- Force field record, from `struct ForceField` in src/system.hpp;
the `active` member is default-initialized to true. -/
structure ForceField where
  x : ℚ := 0
  y : ℚ := 0
  radius : ℚ := 0
  strength : ℚ := 0
  active : Bool := true
deriving DecidableEq

/-- Grid cell edge length, `CELL_SIZE = 30.0f` in src/system.hpp. -/
def CELL_SIZE : ℚ := 30

/-- Cell capacity bound, `MAX_PARTICLES_PER_CELL = 64` in src/system.hpp. -/
def MAX_PARTICLES_PER_CELL : ℕ := 64

/-- Grid coordinate of a position component:
`static_cast<int>(v / CELL_SIZE)`, truncation toward zero. -/
def cellCoord (v : ℚ) : ℤ := ctrunc (v / CELL_SIZE)

/-- Embedding of `ParticleSystem::getCellIndex` (src/system.hpp): clamps
the integer cell coordinates into the valid grid rectangle and flattens
them row-major. -/
def getCellIndex (W H : ℕ) (x y : ℤ) : ℕ :=
  let xc := max 0 (min x ((W : ℤ) - 1))
  let yc := max 0 (min y ((H : ℤ) - 1))
  (yc * W + xc).toNat

/-- Insertion step of `ParticleSystem::updateSpatialGrid` (src/system.cpp):
an active particle's index is appended to its (clamped) cell unless the
cell already holds `MAX_PARTICLES_PER_CELL` indices. -/
def insertIntoGrid (W H : ℕ) (grid : List (List ℕ)) (ip : ℕ × Particle) :
    List (List ℕ) :=
  if ip.2.active then
    let idx := getCellIndex W H (cellCoord ip.2.x) (cellCoord ip.2.y)
    match grid.get? idx with
    | some cell =>
        if cell.length < MAX_PARTICLES_PER_CELL then
          grid.set idx (cell ++ [ip.1])
        else grid
    | none => grid
  else grid

/-- Indexed insertion loop of `ParticleSystem::updateSpatialGrid`
(src/system.cpp): `for (size_t i = 0; i < particles.size(); ++i)`, with
`i` the index of the head of the remaining list. -/
def insertAll (W H : ℕ) : ℕ → List Particle → List (List ℕ) → List (List ℕ)
  | _, [], g => g
  | i, p :: rest, g => insertAll W H (i + 1) rest (insertIntoGrid W H g (i, p))

/-- Embedding of `ParticleSystem::updateSpatialGrid` (src/system.cpp):
clear every cell, then insert every active particle's index. -/
def rebuildGrid (W H : ℕ) (ps : List Particle) : List (List ℕ) :=
  insertAll W H 0 ps (List.replicate (W * H) [])

/-- Cell offsets visited by the 3×3 neighborhood scan in
`ParticleSystem::applyGlobalForces`, as (y_offset, x_offset) pairs in the
source's loop order. -/
def neighborOffsets : List (ℤ × ℤ) :=
  [(-1, -1), (-1, 0), (-1, 1), (0, -1), (0, 0), (0, 1), (1, -1), (1, 0), (1, 1)]

/-- Indices collected by the 3×3-cell neighborhood scan of
`ParticleSystem::applyGlobalForces` for a particle: the concatenation of
the (clamped) cells around the particle's own cell. -/
def neighborIndices (W H : ℕ) (grid : List (List ℕ)) (p : Particle) : List ℕ :=
  let gx := cellCoord p.x
  let gy := cellCoord p.y
  neighborOffsets.foldl (fun acc o =>
    acc ++ (grid.get? (getCellIndex W H (gx + o.2) (gy + o.1))).getD []) []

/-- Force-field contribution of `ParticleSystem::applyGlobalForces`
(src/system.cpp): an inactive field contributes nothing; otherwise with
dx, dy pointing from the particle to the field, the field contributes
`(dx/dist*force, dy/dist*force)` with `force = strength/dist` exactly when
`dist_sq < radius²` and `dist_sq > 0.01`. -/
def fieldContribution (rsqrt : ℚ → ℚ) (f : ForceField) (p : Particle) : ℚ × ℚ :=
  if f.active = false then (0, 0)
  else
    let dx := f.x - p.x
    let dy := f.y - p.y
    let dist_sq := dx * dx + dy * dy
    if dist_sq < f.radius * f.radius ∧ (1 : ℚ)/100 < dist_sq then
      let dist := rsqrt dist_sq
      let force := f.strength / dist
      (dx / dist * force, dy / dist * force)
    else (0, 0)

/-- Repulsion contribution of one neighbor index in
`ParticleSystem::applyGlobalForces` (src/system.cpp): skip an inactive
neighbor and the particle itself; otherwise with dx, dy pointing from the
neighbor to the particle, contribute `(dx*force, dy*force)` with
`force = 500*(1 - dist/15)/dist` exactly when `dist_sq < 15²` and
`dist_sq > 0.01`. -/
def repulsionContribution (rsqrt : ℚ → ℚ) (ps : List Particle)
    (selfIdx : ℕ) (p : Particle) (j : ℕ) : ℚ × ℚ :=
  match ps.get? j with
  | none => (0, 0)
  | some other =>
    if other.active = false ∨ j = selfIdx then (0, 0)
    else
      let dx := p.x - other.x
      let dy := p.y - other.y
      let dist_sq := dx * dx + dy * dy
      if dist_sq < 15 * 15 ∧ (1 : ℚ)/100 < dist_sq then
        let dist := rsqrt dist_sq
        let force := 500 * (1 - dist / 15) / dist
        (dx * force, dy * force)
      else (0, 0)

/-- System state, from `class ParticleSystem` in src/system.hpp.
The two-phase barrier, the running flag and the stored dt are part of the
concurrency scaffolding and have no observable effect on the sequential
semantics embedded here; the worker count is kept for the partition
arithmetic. -/
structure ParticleSystem where
  particles : List Particle
  emitters : List Emitter
  force_fields : List ForceField
  gridW : ℕ
  gridH : ℕ
  grid : List (List ℕ)
  interaction : Bool
  threadCount : ℕ

/-- Embedding of `ParticleSystem::applyGlobalForces` (src/system.cpp):
gravity (0, 98), then every force field in order, then — when particle
interaction is enabled — the repulsion contributions of the indices
returned by the 3×3 neighborhood scan, in order. -/
def ParticleSystem.applyGlobalForces (rsqrt : ℚ → ℚ) (st : ParticleSystem)
    (selfIdx : ℕ) (q : Particle) : Particle :=
  let p0 := q.applyForce 0 98
  let p1 := st.force_fields.foldl (fun p f =>
    let c := fieldContribution rsqrt f p
    p.applyForce c.1 c.2) p0
  if st.interaction then
    (neighborIndices st.gridW st.gridH st.grid p1).foldl (fun p j =>
      let c := repulsionContribution rsqrt st.particles selfIdx p j
      p.applyForce c.1 c.2) p1
  else p1

/-- One iteration of the per-particle loop in
`ParticleSystem::workerFunction` (src/system.cpp): skip an inactive slot;
otherwise apply the global forces and integrate. -/
def ParticleSystem.processParticle (rsqrt : ℚ → ℚ) (dt : ℚ)
    (st : ParticleSystem) (i : ℕ) : ParticleSystem :=
  match st.particles.get? i with
  | none => st
  | some p =>
    if p.active then
      let p1 := ParticleSystem.applyGlobalForces rsqrt st i p
      let p2 := p1.update dt
      { st with particles := st.particles.set i p2 }
    else st

/-- Parallel force+integrate phase of `ParticleSystem::update`, modelled as
the sequential single-thread schedule over all pool indices in increasing
order (the thread_count = 1 execution of `workerFunction`). -/
def ParticleSystem.workerPhase (rsqrt : ℚ → ℚ) (dt : ℚ)
    (st : ParticleSystem) : ParticleSystem :=
  (List.range st.particles.length).foldl (ParticleSystem.processParticle rsqrt dt) st

/-- Emission phase of `ParticleSystem::update` (src/system.cpp): run every
emitter's `update` in order, threading the particle pool through. -/
def ParticleSystem.emitPhase (tcos tsin : ℚ → ℚ) (dt : ℚ)
    (st : ParticleSystem) : ParticleSystem :=
  let r := st.emitters.foldl
    (fun (acc : List Emitter × List Particle) e =>
      let u := Emitter.update tcos tsin e dt acc.2
      (acc.1 ++ [u.1], u.2.1))
    ([], st.particles)
  { st with emitters := r.1, particles := r.2 }

/-- Embedding of `ParticleSystem::update` (src/system.cpp): first the
spatial grid is rebuilt (only when particle interaction is enabled), then
the emitters run, then the worker force+integrate phase. -/
def ParticleSystem.update (tcos tsin rsqrt : ℚ → ℚ) (dt : ℚ)
    (st : ParticleSystem) : ParticleSystem :=
  let st1 :=
    if st.interaction then
      { st with grid := rebuildGrid st.gridW st.gridH st.particles }
    else st
  let st2 := ParticleSystem.emitPhase tcos tsin dt st1
  ParticleSystem.workerPhase rsqrt dt st2

/-- Embedding of the `ParticleSystem` constructor (src/system.cpp): grid
dimensions are `screen/30 + 2`, the grid is pre-allocated empty, every
particle starts inactive. -/
def ParticleSystem.init (max_particles thread_count screen_width screen_height : ℕ) :
    ParticleSystem :=
  let W := screen_width / 30 + 2
  let H := screen_height / 30 + 2
  { particles := List.replicate max_particles {},
    emitters := [],
    force_fields := [],
    gridW := W, gridH := H,
    grid := List.replicate (W * H) [],
    interaction := true,
    threadCount := thread_count }

/-- Construction as a fallible operation: the source constructor has no
rejection path (it performs no validation of thread count or capacity and
cannot throw), so the embedding always returns `some`; a fail-fast
rejection would be modelled by `none`. -/
def mkParticleSystem (max_particles thread_count screen_width screen_height : ℕ) :
    Option ParticleSystem :=
  some (ParticleSystem.init max_particles thread_count screen_width screen_height)

/-- Public operations of `ParticleSystem` (src/system.hpp). An `update`
carries the math oracles; an `addEmitter` carries the random oracle the
new emitter is seeded with. -/
inductive SystemOp where
  | update (tcos tsin rsqrt : ℚ → ℚ) (dt : ℚ)
  | addEmitter (s : EmitterSettings) (rng : ℕ → Draws)
  | removeEmitter (i : ℕ)
  | addForceField (x y radius strength : ℚ)
  | removeForceField (i : ℕ)
  | updateForceField (i : ℕ) (x y : ℚ)
  | toggleInteraction (b : Bool)
  | reset

/-- Embedding of `ParticleSystem::reset` (src/system.cpp): deactivate all
particles, clear emitters, force fields and every grid cell. -/
def ParticleSystem.reset (st : ParticleSystem) : ParticleSystem :=
  { st with
    particles := st.particles.map (fun p => { p with active := false }),
    emitters := [],
    force_fields := [],
    grid := st.grid.map (fun _ => []) }

/-- Dispatch of the public mutating interface of `ParticleSystem`
(src/system.cpp): `addForceField` pushes a record whose `active` member
is default-initialized to true; the removal and positional accessors are
bounds-checked no-ops out of range. -/
def ParticleSystem.applyOp (st : ParticleSystem) : SystemOp → ParticleSystem
  | SystemOp.update tc ts rs dt => ParticleSystem.update tc ts rs dt st
  | SystemOp.addEmitter s rng =>
      { st with emitters := st.emitters ++ [{ settings := s, rng := rng }] }
  | SystemOp.removeEmitter i =>
      if i < st.emitters.length then
        { st with emitters := st.emitters.eraseIdx i }
      else st
  | SystemOp.addForceField x y radius strength =>
      { st with force_fields :=
          st.force_fields ++ [{ x := x, y := y, radius := radius, strength := strength }] }
  | SystemOp.removeForceField i =>
      if i < st.force_fields.length then
        { st with force_fields := st.force_fields.eraseIdx i }
      else st
  | SystemOp.updateForceField i x y =>
      match st.force_fields.get? i with
      | some f => { st with force_fields := st.force_fields.set i { f with x := x, y := y } }
      | none => st
  | SystemOp.toggleInteraction b => { st with interaction := b }
  | SystemOp.reset => ParticleSystem.reset st

/-- Runs a sequence of public operations from a given state. -/
def ParticleSystem.applyOps (st : ParticleSystem) (ops : List SystemOp) :
    ParticleSystem :=
  ops.foldl ParticleSystem.applyOp st

/-- Worker partition arithmetic of `ParticleSystem::workerFunction`
(src/system.cpp): start of worker id's index range,
`id * (total / thread_count)` in size_t arithmetic. -/
def workerStart (id thread_count total : ℕ) : ℕ :=
  id * (total / thread_count)

/-- Worker partition arithmetic of `ParticleSystem::workerFunction`
(src/system.cpp): end of worker id's index range; the last worker absorbs
the remainder. -/
def workerEnd (id thread_count total : ℕ) : ℕ :=
  if id = thread_count - 1 then total else (id + 1) * (total / thread_count)

/-- Number of active particles in a pool. -/
def countActive (ps : List Particle) : ℕ :=
  (ps.filter (fun p => p.active)).length

/-- Constant-zero oracle used where a transcendental function's value is
irrelevant to the result. -/
def zeroFun : ℚ → ℚ := fun _ => 0

/-- Claim C3: Particle::update is a no-op on an inactive particle; on an
active particle it advances velocity by acceleration*dt, position by the
new velocity*dt, decrements lifetime by dt, deactivates exactly when the
new lifetime is ≤ 0, resets acceleration, and with dt > 0 the lifetime
strictly decreases. -/
theorem c3_particle_update (p : Particle) (dt : ℚ) :
    (p.active = false → p.update dt = p) ∧
    (p.active = true → 0 < dt →
      (p.update dt).vx = p.vx + p.ax * dt ∧
      (p.update dt).vy = p.vy + p.ay * dt ∧
      (p.update dt).x = p.x + (p.vx + p.ax * dt) * dt ∧
      (p.update dt).y = p.y + (p.vy + p.ay * dt) * dt ∧
      (p.update dt).lifetime = p.lifetime - dt ∧
      ((p.update dt).active = false ↔ p.lifetime - dt ≤ 0) ∧
      (p.update dt).ax = 0 ∧ (p.update dt).ay = 0 ∧
      (p.update dt).lifetime < p.lifetime) := by
  constructor
  · intro h
    simp [Particle.update, h]
  · intro h hdt
    have hrec : p.update dt =
        { p with
          vx := p.vx + p.ax * dt, vy := p.vy + p.ay * dt,
          x := p.x + (p.vx + p.ax * dt) * dt,
          y := p.y + (p.vy + p.ay * dt) * dt,
          lifetime := p.lifetime - dt,
          active := if p.lifetime - dt ≤ 0 then false else true,
          ax := 0, ay := 0 } := by
      simp [Particle.update, h]
    rw [hrec]
    refine ⟨rfl, rfl, rfl, rfl, rfl, ?_, rfl, rfl, ?_⟩
    · by_cases hl : p.lifetime - dt ≤ 0 <;> simp [hl]
    · show p.lifetime - dt < p.lifetime
      linarith

/-- Witness for C3 at a concrete active particle and dt = 1. -/
def c3P : Particle :=
  { x := 1, y := 2, vx := 3, vy := 4, ax := 5, ay := 6, lifetime := 10,
    active := true }

/-- Witness instantiation of c3_particle_update. -/
theorem c3_particle_update_witness :
    (c3P.update 1).vx = c3P.vx + c3P.ax * 1 ∧
    (c3P.update 1).lifetime = c3P.lifetime - 1 ∧
    (c3P.update 1).lifetime < c3P.lifetime := by
  have h := (c3_particle_update c3P 1).2 rfl (by norm_num)
  exact ⟨h.1, h.2.2.2.2.1, h.2.2.2.2.2.2.2.2⟩

/-- Test emitter for the emission-carry scenario of the spec: rate 10. -/
def c1Emitter : Emitter := { settings := { rate := 10, type := EmitterType.Point } }

/-- Runs n calls of Emitter.update with dt = 1/20 on a pool of 12 free
slots (an inactive slot is always available: at most 11 emissions occur),
returning the final emitter, pool and total emitted count. -/
def c1Run : ℕ → Emitter × List Particle × ℕ
  | 0 => (c1Emitter, List.replicate 12 {}, 0)
  | n + 1 =>
    let r := c1Run n
    let u := Emitter.update zeroFun zeroFun r.1 (1/20) r.2.1
    (u.1, u.2.1, r.2.2 + u.2.2)

/-- Number of inactive slots in a pool. -/
def countInactive (ps : List Particle) : ℕ :=
  (ps.filter (fun p => !p.active)).length

/-- Emitter.emitParticle only touches the rng cursor and (for Spiral) the
spiral phase of its emitter: modifiers, accumulator and rate survive, and
the emitted particle is active. -/
theorem emitParticle_fields (tcos tsin : ℚ → ℚ) (e : Emitter) (p : Particle) :
    (e.emitParticle tcos tsin p).1.modifiers = e.modifiers ∧
    (e.emitParticle tcos tsin p).1.time_accumulator = e.time_accumulator ∧
    (e.emitParticle tcos tsin p).1.settings.rate = e.settings.rate ∧
    (e.emitParticle tcos tsin p).2.active = true := by
  cases h : e.settings.type <;>
    simp [Emitter.emitParticle, h]

/-- Emitter.emitScan on a pool with no inactive slot finds nothing. -/
theorem emitScan_none (tcos tsin : ℚ → ℚ) (e : Emitter) :
    ∀ ps : List Particle, countInactive ps = 0 →
      Emitter.emitScan tcos tsin e ps = none := by
  intro ps
  induction ps with
  | nil => intro _; rfl
  | cons p rest ih =>
    intro h
    by_cases hp : p.active = true
    · have hr : countInactive rest = 0 := by
        simpa [countInactive, List.filter, hp] using h
      simp [Emitter.emitScan, hp, ih hr]
    · exfalso
      have : countInactive (p :: rest) = countInactive rest + 1 := by
        simp [countInactive, List.filter, hp]
      omega

/-- Emitter.emitScan on a modifier-free emitter and a pool with an
inactive slot: it succeeds, preserves modifiers, accumulator, rate and
pool length, and decreases the number of inactive slots by one. -/
theorem emitScan_some (tcos tsin : ℚ → ℚ) :
    ∀ (ps : List Particle) (e : Emitter), e.modifiers = [] →
      0 < countInactive ps →
      ∃ r : Emitter × List Particle,
        Emitter.emitScan tcos tsin e ps = some r ∧
        r.1.modifiers = [] ∧
        r.1.time_accumulator = e.time_accumulator ∧
        r.1.settings.rate = e.settings.rate ∧
        r.2.length = ps.length ∧
        countInactive r.2 = countInactive ps - 1 := by
  intro ps
  induction ps with
  | nil => intro e _ h; simp [countInactive] at h
  | cons p rest ih =>
    intro e hm h
    by_cases hp : p.active = true
    · have h' : 0 < countInactive rest := by
        simpa [countInactive, List.filter, hp] using h
      obtain ⟨r, hr, hrm, hra, hrr, hrl, hrc⟩ := ih e hm h'
      refine ⟨(r.1, p :: r.2), ?_, hrm, hra, hrr, ?_, ?_⟩
      · simp [Emitter.emitScan, hp, hr]
      · simp [hrl]
      · have hc : countInactive (p :: rest) = countInactive rest := by
          simp [countInactive, List.filter, hp]
        simp [countInactive, List.filter, hp] at hrc ⊢
        omega
    · have hp' : p.active = false := by
        simpa using hp
      obtain ⟨h1, _, _, h4⟩ := emitParticle_fields tcos tsin e p
      refine ⟨((e.emitParticle tcos tsin p).1,
               (e.emitParticle tcos tsin p).2 :: rest), ?_, ?_, ?_, ?_, ?_, ?_⟩
      · simp [Emitter.emitScan, hp', h1, hm]
      · simp [h1, hm]
      · exact (emitParticle_fields tcos tsin e p).2.1
      · exact (emitParticle_fields tcos tsin e p).2.2.1
      · simp
      · simp [countInactive, List.filter, hp', h4]

/-- Emitter.emitLoop on a modifier-free emitter with at least k inactive
slots emits exactly k particles and preserves the accumulator and rate. -/
theorem emitLoop_count (tcos tsin : ℚ → ℚ) :
    ∀ (k : ℕ) (e : Emitter) (ps : List Particle) (n : ℕ),
      e.modifiers = [] → k ≤ countInactive ps →
      (Emitter.emitLoop tcos tsin k e ps n).2.2 = n + k ∧
      (Emitter.emitLoop tcos tsin k e ps n).1.modifiers = [] ∧
      (Emitter.emitLoop tcos tsin k e ps n).1.time_accumulator
          = e.time_accumulator ∧
      (Emitter.emitLoop tcos tsin k e ps n).1.settings.rate
          = e.settings.rate ∧
      countInactive (Emitter.emitLoop tcos tsin k e ps n).2.1
          = countInactive ps - k := by
  intro k
  induction k with
  | zero => intro e ps n hm _; simp [Emitter.emitLoop, hm]
  | succ k ih =>
    intro e ps n hm hk
    have h0 : 0 < countInactive ps := by omega
    obtain ⟨r, hr, hrm, hra, hrr, _, hrc⟩ := emitScan_some tcos tsin ps e hm h0
    have hk' : k ≤ countInactive r.2 := by omega
    obtain ⟨ih1, ih2, ih3, ih4, ih5⟩ := ih r.1 r.2 (n + 1) hrm hk'
    refine ⟨?_, ?_, ?_, ?_, ?_⟩ <;>
      simp [Emitter.emitLoop, hr, ih1, ih2, ih3, ih4, ih5, hra, hrr, hrc] <;>
      omega

/-- Characterization of Emitter.update on a modifier-free emitter with
enough free slots: the count emitted is the truncated whole part of
`rate*dt + (carry + dt)` — dt is added into the carry before use — and the
new carry is the fractional remainder of that quantity. -/
theorem emitter_update_spec (tcos tsin : ℚ → ℚ) (e : Emitter) (dt : ℚ)
    (ps : List Particle) (hm : e.modifiers = [])
    (hk : (ctrunc (e.settings.rate * dt + (e.time_accumulator + dt))).toNat
            ≤ countInactive ps) :
    (Emitter.update tcos tsin e dt ps).2.2
        = (ctrunc (e.settings.rate * dt + (e.time_accumulator + dt))).toNat ∧
    (Emitter.update tcos tsin e dt ps).1.time_accumulator
        = e.settings.rate * dt + (e.time_accumulator + dt)
          - ctrunc (e.settings.rate * dt + (e.time_accumulator + dt)) ∧
    (Emitter.update tcos tsin e dt ps).1.settings.rate = e.settings.rate ∧
    (Emitter.update tcos tsin e dt ps).1.modifiers = [] ∧
    countInactive (Emitter.update tcos tsin e dt ps).2.1
        = countInactive ps
          - (ctrunc (e.settings.rate * dt + (e.time_accumulator + dt))).toNat := by
  have h := emitLoop_count tcos tsin
    (ctrunc (e.settings.rate * dt + (e.time_accumulator + dt))).toNat
    { e with time_accumulator :=
        e.settings.rate * dt + (e.time_accumulator + dt)
          - ctrunc (e.settings.rate * dt + (e.time_accumulator + dt)) }
    ps 0 (by simpa using hm) hk
  refine ⟨by simpa [Emitter.update] using h.1,
    by simpa [Emitter.update] using h.2.2.1,
    by simpa [Emitter.update] using h.2.2.2.1,
    by simpa [Emitter.update] using h.2.1,
    by simpa [Emitter.update] using h.2.2.2.2⟩

/-- Invariant used to walk the 20-call scenario: after n calls the emitter
is still modifier-free with rate 10, its accumulator is a, the total
emitted is c, and 12 - c slots remain inactive. -/
def c1Good (n : ℕ) (a : ℚ) (c : ℕ) : Prop :=
  (c1Run n).1.modifiers = [] ∧
  (c1Run n).1.settings.rate = 10 ∧
  (c1Run n).1.time_accumulator = a ∧
  (c1Run n).2.2 = c ∧
  countInactive (c1Run n).2.1 = 12 - c

/-- One step of the 20-call scenario, with the new accumulator and count
supplied explicitly. -/
theorem c1Step (n : ℕ) (a : ℚ) (c : ℕ) (hg : c1Good n a c)
    (w : ℕ) (a' : ℚ)
    (hw : (w : ℤ) = ctrunc (10 * (1/20) + (a + 1/20)))
    (ha : a' = 10 * (1/20) + (a + 1/20) - w)
    (hle : w ≤ 12 - c) :
    c1Good (n + 1) a' (c + w) := by
  obtain ⟨h1, h2, h3, h4, h5⟩ := hg
  have hwn : (ctrunc (10 * (1/20) + (a + 1/20))).toNat = w := by
    rw [← hw]
    exact Int.toNat_natCast w
  have hspec := emitter_update_spec zeroFun zeroFun (c1Run n).1 (1/20)
    (c1Run n).2.1 h1 (by rw [h2, h3, hwn, h5]; exact hle)
  rw [h2, h3] at hspec
  obtain ⟨s1, s2, s3, s4, s5⟩ := hspec
  refine ⟨?_, ?_, ?_, ?_, ?_⟩
  · simpa [c1Run] using s4
  · simpa [c1Run] using s3
  · show (Emitter.update zeroFun zeroFun (c1Run n).1 (1/20) (c1Run n).2.1).1.time_accumulator = a'
    rw [s2, hwn] at *
    rw [ha, ← hw]
    push_cast
    ring
  · show (c1Run n).2.2 + (Emitter.update zeroFun zeroFun (c1Run n).1 (1/20) (c1Run n).2.1).2.2 = c + w
    rw [h4, s1, hwn]
  · show countInactive (Emitter.update zeroFun zeroFun (c1Run n).1 (1/20) (c1Run n).2.1).2.1 = 12 - (c + w)
    rw [s5, hwn, h5]
    omega

/-- Base of the 20-call scenario: fresh emitter, empty pool of 12 slots. -/
theorem c1Good_zero : c1Good 0 0 0 := by
  refine ⟨rfl, rfl, rfl, rfl, ?_⟩
  show countInactive (List.replicate 12 {}) = 12
  simp [countInactive, List.replicate]

/-- Claim C1 evaluated on the code: with rate = 10 and dt = 0.05, the code
emits 11 particles over 20 calls (the spec's carry rule demands exactly
10), and already after the first call the carry is 0.55 instead of the
0.5 demanded by emit_float = rate*dt + carry: the source adds dt itself
into the accumulator before using it. -/
theorem c1_emitter_accumulator_bug :
    (c1Run 20).2.2 = 11 ∧ (c1Run 1).1.time_accumulator = 11/20 := by
  have g1 : c1Good 1 (11/20) 0 :=
    c1Step 0 0 0 c1Good_zero 0 (11/20)
      (by norm_num [ctrunc]) (by norm_num) (by norm_num)
  have g2 : c1Good 2 (1/10) 1 :=
    c1Step 1 (11/20) 0 g1 1 (1/10)
      (by norm_num [ctrunc]) (by norm_num) (by norm_num)
  have g3 : c1Good 3 (13/20) 1 :=
    c1Step 2 (1/10) 1 g2 0 (13/20)
      (by norm_num [ctrunc]) (by norm_num) (by norm_num)
  have g4 : c1Good 4 (1/5) 2 :=
    c1Step 3 (13/20) 1 g3 1 (1/5)
      (by norm_num [ctrunc]) (by norm_num) (by norm_num)
  have g5 : c1Good 5 (3/4) 2 :=
    c1Step 4 (1/5) 2 g4 0 (3/4)
      (by norm_num [ctrunc]) (by norm_num) (by norm_num)
  have g6 : c1Good 6 (3/10) 3 :=
    c1Step 5 (3/4) 2 g5 1 (3/10)
      (by norm_num [ctrunc]) (by norm_num) (by norm_num)
  have g7 : c1Good 7 (17/20) 3 :=
    c1Step 6 (3/10) 3 g6 0 (17/20)
      (by norm_num [ctrunc]) (by norm_num) (by norm_num)
  have g8 : c1Good 8 (2/5) 4 :=
    c1Step 7 (17/20) 3 g7 1 (2/5)
      (by norm_num [ctrunc]) (by norm_num) (by norm_num)
  have g9 : c1Good 9 (19/20) 4 :=
    c1Step 8 (2/5) 4 g8 0 (19/20)
      (by norm_num [ctrunc]) (by norm_num) (by norm_num)
  have g10 : c1Good 10 (1/2) 5 :=
    c1Step 9 (19/20) 4 g9 1 (1/2)
      (by norm_num [ctrunc]) (by norm_num) (by norm_num)
  have g11 : c1Good 11 (1/20) 6 :=
    c1Step 10 (1/2) 5 g10 1 (1/20)
      (by norm_num [ctrunc]) (by norm_num) (by norm_num)
  have g12 : c1Good 12 (3/5) 6 :=
    c1Step 11 (1/20) 6 g11 0 (3/5)
      (by norm_num [ctrunc]) (by norm_num) (by norm_num)
  have g13 : c1Good 13 (3/20) 7 :=
    c1Step 12 (3/5) 6 g12 1 (3/20)
      (by norm_num [ctrunc]) (by norm_num) (by norm_num)
  have g14 : c1Good 14 (7/10) 7 :=
    c1Step 13 (3/20) 7 g13 0 (7/10)
      (by norm_num [ctrunc]) (by norm_num) (by norm_num)
  have g15 : c1Good 15 (1/4) 8 :=
    c1Step 14 (7/10) 7 g14 1 (1/4)
      (by norm_num [ctrunc]) (by norm_num) (by norm_num)
  have g16 : c1Good 16 (4/5) 8 :=
    c1Step 15 (1/4) 8 g15 0 (4/5)
      (by norm_num [ctrunc]) (by norm_num) (by norm_num)
  have g17 : c1Good 17 (7/20) 9 :=
    c1Step 16 (4/5) 8 g16 1 (7/20)
      (by norm_num [ctrunc]) (by norm_num) (by norm_num)
  have g18 : c1Good 18 (9/10) 9 :=
    c1Step 17 (7/20) 9 g17 0 (9/10)
      (by norm_num [ctrunc]) (by norm_num) (by norm_num)
  have g19 : c1Good 19 (9/20) 10 :=
    c1Step 18 (9/10) 9 g18 1 (9/20)
      (by norm_num [ctrunc]) (by norm_num) (by norm_num)
  have g20 : c1Good 20 0 11 :=
    c1Step 19 (9/20) 10 g19 1 0
      (by norm_num [ctrunc]) (by norm_num) (by norm_num)
  exact ⟨g20.2.2.2.1, g1.2.2.1⟩

/-- Emitter.emitScan preserves the pool length. -/
theorem emitScan_length (tcos tsin : ℚ → ℚ) :
    ∀ (ps : List Particle) (e : Emitter) (r : Emitter × List Particle),
      Emitter.emitScan tcos tsin e ps = some r → r.2.length = ps.length := by
  intro ps
  induction ps with
  | nil => intro e r h; simp [Emitter.emitScan] at h
  | cons p rest ih =>
    intro e r h
    by_cases hp : p.active = true
    · simp only [Emitter.emitScan, hp, Bool.not_true, Bool.false_eq_true,
        if_false] at h
      cases hs : Emitter.emitScan tcos tsin e rest with
      | none => rw [hs] at h; simp at h
      | some r' =>
        rw [hs] at h
        simp only [Option.map_some'] at h
        injection h with h2
        rw [← h2]
        simp [ih e r' hs]
    · have hp' : p.active = false := by simpa using hp
      simp only [Emitter.emitScan, hp', Bool.not_false, if_true] at h
      injection h with h2
      rw [← h2]
      simp

/-- Emitter.emitLoop preserves the pool length. -/
theorem emitLoop_length (tcos tsin : ℚ → ℚ) :
    ∀ (k : ℕ) (e : Emitter) (ps : List Particle) (n : ℕ),
      (Emitter.emitLoop tcos tsin k e ps n).2.1.length = ps.length := by
  intro k
  induction k with
  | zero => intro e ps n; rfl
  | succ k ih =>
    intro e ps n
    cases hs : Emitter.emitScan tcos tsin e ps with
    | none => simp [Emitter.emitLoop, hs, ih]
    | some r =>
      have hl := emitScan_length tcos tsin ps e r hs
      simp [Emitter.emitLoop, hs, ih, hl]

/-- Emitter.update preserves the pool length. -/
theorem emitter_update_length (tcos tsin : ℚ → ℚ) (e : Emitter) (dt : ℚ)
    (ps : List Particle) :
    (Emitter.update tcos tsin e dt ps).2.1.length = ps.length := by
  simp [Emitter.update, emitLoop_length]

/-- The emitter fold of the emission phase preserves the pool length. -/
theorem emitFold_length (tcos tsin : ℚ → ℚ) (dt : ℚ) :
    ∀ (es : List Emitter) (acc : List Emitter × List Particle),
      ((es.foldl
        (fun (acc : List Emitter × List Particle) e =>
          let u := Emitter.update tcos tsin e dt acc.2
          (acc.1 ++ [u.1], u.2.1)) acc).2).length = acc.2.length := by
  intro es
  induction es with
  | nil => intro acc; rfl
  | cons e rest ih =>
    intro acc
    simp only [List.foldl_cons]
    rw [ih]
    exact emitter_update_length tcos tsin e dt acc.2

/-- The emission phase preserves the pool length and every field of the
system other than emitters and particles. -/
theorem emitPhase_preserves (tcos tsin : ℚ → ℚ) (dt : ℚ) (st : ParticleSystem) :
    (ParticleSystem.emitPhase tcos tsin dt st).particles.length
        = st.particles.length ∧
    (ParticleSystem.emitPhase tcos tsin dt st).force_fields = st.force_fields ∧
    (ParticleSystem.emitPhase tcos tsin dt st).grid = st.grid ∧
    (ParticleSystem.emitPhase tcos tsin dt st).gridW = st.gridW ∧
    (ParticleSystem.emitPhase tcos tsin dt st).gridH = st.gridH ∧
    (ParticleSystem.emitPhase tcos tsin dt st).interaction = st.interaction ∧
    (ParticleSystem.emitPhase tcos tsin dt st).threadCount = st.threadCount := by
  refine ⟨?_, rfl, rfl, rfl, rfl, rfl, rfl⟩
  exact emitFold_length tcos tsin dt st.emitters ([], st.particles)

/-- One worker step preserves the pool length and every field of the
system other than particles. -/
theorem processParticle_preserves (rsqrt : ℚ → ℚ) (dt : ℚ)
    (st : ParticleSystem) (i : ℕ) :
    (ParticleSystem.processParticle rsqrt dt st i).particles.length
        = st.particles.length ∧
    (ParticleSystem.processParticle rsqrt dt st i).force_fields = st.force_fields ∧
    (ParticleSystem.processParticle rsqrt dt st i).grid = st.grid ∧
    (ParticleSystem.processParticle rsqrt dt st i).gridW = st.gridW ∧
    (ParticleSystem.processParticle rsqrt dt st i).gridH = st.gridH ∧
    (ParticleSystem.processParticle rsqrt dt st i).interaction = st.interaction ∧
    (ParticleSystem.processParticle rsqrt dt st i).threadCount = st.threadCount ∧
    (ParticleSystem.processParticle rsqrt dt st i).emitters = st.emitters := by
  unfold ParticleSystem.processParticle
  cases st.particles.get? i with
  | none => exact ⟨rfl, rfl, rfl, rfl, rfl, rfl, rfl, rfl⟩
  | some p =>
    by_cases hp : p.active = true <;> simp [hp]

/-- The index fold of the worker phase preserves the pool length and every
field of the system other than particles. -/
theorem procFold_preserves (rsqrt : ℚ → ℚ) (dt : ℚ) :
    ∀ (l : List ℕ) (st : ParticleSystem),
      ((l.foldl (ParticleSystem.processParticle rsqrt dt) st)).particles.length
          = st.particles.length ∧
      ((l.foldl (ParticleSystem.processParticle rsqrt dt) st)).force_fields
          = st.force_fields ∧
      ((l.foldl (ParticleSystem.processParticle rsqrt dt) st)).grid = st.grid ∧
      ((l.foldl (ParticleSystem.processParticle rsqrt dt) st)).gridW = st.gridW ∧
      ((l.foldl (ParticleSystem.processParticle rsqrt dt) st)).gridH = st.gridH ∧
      ((l.foldl (ParticleSystem.processParticle rsqrt dt) st)).interaction
          = st.interaction ∧
      ((l.foldl (ParticleSystem.processParticle rsqrt dt) st)).threadCount
          = st.threadCount ∧
      ((l.foldl (ParticleSystem.processParticle rsqrt dt) st)).emitters
          = st.emitters := by
  intro l
  induction l with
  | nil => intro st; exact ⟨rfl, rfl, rfl, rfl, rfl, rfl, rfl, rfl⟩
  | cons i rest ih =>
    intro st
    obtain ⟨i1, i2, i3, i4, i5, i6, i7, i8⟩ :=
      ih (ParticleSystem.processParticle rsqrt dt st i)
    obtain ⟨p1, p2, p3, p4, p5, p6, p7, p8⟩ :=
      processParticle_preserves rsqrt dt st i
    simp only [List.foldl_cons]
    exact ⟨i1.trans p1, i2.trans p2, i3.trans p3, i4.trans p4,
      i5.trans p5, i6.trans p6, i7.trans p7, i8.trans p8⟩

/-- One frame preserves the pool length, the force fields and the grid
dimensions; the grid after the frame is the rebuild of the pre-frame pool
when interaction is enabled and is untouched otherwise. -/
theorem update_preserves (tcos tsin rsqrt : ℚ → ℚ) (dt : ℚ)
    (st : ParticleSystem) :
    (ParticleSystem.update tcos tsin rsqrt dt st).particles.length
        = st.particles.length ∧
    (ParticleSystem.update tcos tsin rsqrt dt st).force_fields
        = st.force_fields ∧
    (ParticleSystem.update tcos tsin rsqrt dt st).gridW = st.gridW ∧
    (ParticleSystem.update tcos tsin rsqrt dt st).gridH = st.gridH ∧
    (ParticleSystem.update tcos tsin rsqrt dt st).interaction
        = st.interaction ∧
    (ParticleSystem.update tcos tsin rsqrt dt st).threadCount
        = st.threadCount ∧
    (ParticleSystem.update tcos tsin rsqrt dt st).grid
        = (if st.interaction then rebuildGrid st.gridW st.gridH st.particles
           else st.grid) := by
  unfold ParticleSystem.update ParticleSystem.workerPhase
  by_cases hi : st.interaction = true
  · rw [if_pos hi, if_pos hi]
    obtain ⟨e1, e2, e3, e4, e5, e6, e7⟩ := emitPhase_preserves tcos tsin dt
      { st with grid := rebuildGrid st.gridW st.gridH st.particles }
    obtain ⟨w1, w2, w3, w4, w5, w6, w7, w8⟩ := procFold_preserves rsqrt dt
      (List.range (ParticleSystem.emitPhase tcos tsin dt
        { st with grid := rebuildGrid st.gridW st.gridH st.particles }).particles.length)
      (ParticleSystem.emitPhase tcos tsin dt
        { st with grid := rebuildGrid st.gridW st.gridH st.particles })
    exact ⟨w1.trans e1, w2.trans e2, w4.trans e4, w5.trans e5,
      w6.trans e6, w7.trans e7, w3.trans e3⟩
  · rw [if_neg hi, if_neg hi]
    obtain ⟨e1, e2, e3, e4, e5, e6, e7⟩ := emitPhase_preserves tcos tsin dt st
    obtain ⟨w1, w2, w3, w4, w5, w6, w7, w8⟩ := procFold_preserves rsqrt dt
      (List.range (ParticleSystem.emitPhase tcos tsin dt st).particles.length)
      (ParticleSystem.emitPhase tcos tsin dt st)
    exact ⟨w1.trans e1, w2.trans e2, w4.trans e4, w5.trans e5,
      w6.trans e6, w7.trans e7, w3.trans e3⟩

/-- Every public operation preserves the pool length. -/
theorem applyOp_length (st : ParticleSystem) (op : SystemOp) :
    (st.applyOp op).particles.length = st.particles.length := by
  cases op with
  | update tc ts rs dt => exact (update_preserves tc ts rs dt st).1
  | addEmitter s rng => rfl
  | removeEmitter i =>
      by_cases h : i < st.emitters.length <;> simp [ParticleSystem.applyOp, h]
  | addForceField x y radius strength => rfl
  | removeForceField i =>
      by_cases h : i < st.force_fields.length <;> simp [ParticleSystem.applyOp, h]
  | updateForceField i x y =>
      simp only [ParticleSystem.applyOp]
      cases st.force_fields.get? i <;> rfl
  | toggleInteraction b => rfl
  | reset => simp [ParticleSystem.applyOp, ParticleSystem.reset]

/-- Any sequence of public operations preserves the pool length. -/
theorem applyOps_length (ops : List SystemOp) :
    ∀ st : ParticleSystem,
      (st.applyOps ops).particles.length = st.particles.length := by
  induction ops with
  | nil => intro st; rfl
  | cons op rest ih =>
    intro st
    show ((st.applyOp op).applyOps rest).particles.length = _
    rw [ih (st.applyOp op), applyOp_length]

/-- Claim C7: from a freshly constructed system with pool capacity C, no
sequence of public operations ever grows the pool, and the number of
active particles never exceeds C. -/
theorem c7_pool_capacity (C t w h : ℕ) (ops : List SystemOp) :
    ((ParticleSystem.init C t w h).applyOps ops).particles.length = C ∧
    countActive ((ParticleSystem.init C t w h).applyOps ops).particles ≤ C := by
  have hlen : ((ParticleSystem.init C t w h).applyOps ops).particles.length = C := by
    rw [applyOps_length]
    simp [ParticleSystem.init]
  refine ⟨hlen, ?_⟩
  calc countActive ((ParticleSystem.init C t w h).applyOps ops).particles
      ≤ ((ParticleSystem.init C t w h).applyOps ops).particles.length :=
        List.length_filter_le _ _
    _ = C := hlen

/-- Counterexample to claim C9: constructing with pool capacity 0 and
thread count 0 succeeds — the source constructor has no validation and no
failure path, so construction is not rejected. -/
theorem c9_counterexample : (mkParticleSystem 0 0 1280 720).isSome = true := rfl

/-- Amended C9: construction never fails — for every capacity and thread
count (including 0) the constructor returns a system; a capacity-0 system
has an empty pool and no sequence of public operations ever activates a
particle in it. -/
theorem c9_construction_unvalidated (c t w h : ℕ) (ops : List SystemOp) :
    (mkParticleSystem c t w h).isSome = true ∧
    countActive ((ParticleSystem.init 0 t w h).applyOps ops).particles = 0 := by
  refine ⟨rfl, ?_⟩
  have h0 := c7_pool_capacity 0 t w h ops
  omega

/-- Every public operation preserves the all-fields-active invariant of
the force-field list. -/
theorem applyOp_fields_active (st : ParticleSystem) (op : SystemOp)
    (hinv : ∀ f ∈ st.force_fields, f.active = true) :
    ∀ f ∈ (st.applyOp op).force_fields, f.active = true := by
  cases op with
  | update tc ts rs dt =>
      intro f hf
      simp only [ParticleSystem.applyOp] at hf
      rw [(update_preserves tc ts rs dt st).2.1] at hf
      exact hinv f hf
  | addEmitter s rng => exact hinv
  | removeEmitter i =>
      by_cases h : i < st.emitters.length <;> simp only [ParticleSystem.applyOp, h,
        if_true, if_false] <;> exact hinv
  | addForceField x y radius strength =>
      intro f hf
      simp only [ParticleSystem.applyOp, List.mem_append, List.mem_singleton] at hf
      cases hf with
      | inl h => exact hinv f h
      | inr h => rw [h]
  | removeForceField i =>
      intro f hf
      by_cases h : i < st.force_fields.length
      · simp only [ParticleSystem.applyOp, h, if_true] at hf
        exact hinv f (List.eraseIdx_subset _ _ hf)
      · simp only [ParticleSystem.applyOp, h, if_false] at hf
        exact hinv f hf
  | updateForceField i x y =>
      intro f hf
      simp only [ParticleSystem.applyOp] at hf
      cases hg : st.force_fields.get? i with
      | none => rw [hg] at hf; exact hinv f hf
      | some f0 =>
        rw [hg] at hf
        simp only at hf
        cases List.mem_or_eq_of_mem_set hf with
        | inl h => exact hinv f h
        | inr h =>
          rw [h]
          show f0.active = true
          exact hinv f0 (List.get?_mem hg)
  | toggleInteraction b => exact hinv
  | reset =>
      intro f hf
      simp [ParticleSystem.applyOp, ParticleSystem.reset] at hf

/-- Claim C10: through the public interface every stored force field is
active — addForceField creates fields with active = true and no operation
ever clears the flag, so the inactive-field branch of the force pass is
unreachable from the public interface. -/
theorem c10_force_fields_active (C t w h : ℕ) (ops : List SystemOp) :
    ∀ f ∈ ((ParticleSystem.init C t w h).applyOps ops).force_fields,
      f.active = true := by
  have main : ∀ (l : List SystemOp) (st : ParticleSystem),
      (∀ f ∈ st.force_fields, f.active = true) →
      ∀ f ∈ (st.applyOps l).force_fields, f.active = true := by
    intro l
    induction l with
    | nil => intro st h; exact h
    | cons op rest ih =>
      intro st h
      exact ih (st.applyOp op) (applyOp_fields_active st op h)
  refine main ops (ParticleSystem.init C t w h) ?_
  intro f hf
  simp [ParticleSystem.init] at hf

/-- Witness instantiation of c10_force_fields_active: the field stored by
a concrete addForceField call is active. -/
theorem c10_force_fields_active_witness :
    ({ x := 1, y := 2, radius := 3, strength := 4 : ForceField }).active = true := by
  refine c10_force_fields_active 5 1 60 60
    [SystemOp.addForceField 1 2 3 4]
    { x := 1, y := 2, radius := 3, strength := 4 } ?_
  show { x := 1, y := 2, radius := 3, strength := 4 : ForceField }
      ∈ (((ParticleSystem.init 5 1 60 60).applyOp
            (SystemOp.addForceField 1 2 3 4)).applyOps []).force_fields
  simp [ParticleSystem.applyOps, ParticleSystem.applyOp, ParticleSystem.init]

/-- Squared distance between a force field and a particle, the `dist_sq`
local of `ParticleSystem::applyGlobalForces`. -/
def fieldDistSq (f : ForceField) (p : Particle) : ℚ :=
  (f.x - p.x) * (f.x - p.x) + (f.y - p.y) * (f.y - p.y)

/-- Claim C4: an inactive field contributes nothing; an active field
contributes exactly when dist² is strictly below radius² and strictly
above the 0.01 singularity guard; assuming the square root is exact at
dist², the contribution equals (strength/dist²)·(dx, dy) — so its dot
product with the particle-to-field vector is exactly `strength` (toward
the field for positive strength, away for negative) and its squared
magnitude is strength²/dist², i.e. magnitude |strength|/dist. -/
theorem c4_field_force (rsqrt : ℚ → ℚ) (f : ForceField) (p : Particle) :
    (f.active = false → fieldContribution rsqrt f p = (0, 0)) ∧
    (¬(fieldDistSq f p < f.radius * f.radius ∧ (1:ℚ)/100 < fieldDistSq f p) →
      fieldContribution rsqrt f p = (0, 0)) ∧
    (f.active = true →
     fieldDistSq f p < f.radius * f.radius →
     (1:ℚ)/100 < fieldDistSq f p →
     rsqrt (fieldDistSq f p) * rsqrt (fieldDistSq f p) = fieldDistSq f p →
     0 < rsqrt (fieldDistSq f p) →
       fieldContribution rsqrt f p
         = (f.strength / fieldDistSq f p * (f.x - p.x),
            f.strength / fieldDistSq f p * (f.y - p.y)) ∧
       (fieldContribution rsqrt f p).1 * (f.x - p.x)
         + (fieldContribution rsqrt f p).2 * (f.y - p.y) = f.strength ∧
       (fieldContribution rsqrt f p).1 ^ 2 + (fieldContribution rsqrt f p).2 ^ 2
         = f.strength ^ 2 / fieldDistSq f p) := by
  refine ⟨?_, ?_, ?_⟩
  · intro h
    simp [fieldContribution, h]
  · intro h
    by_cases ha : f.active = false
    · simp [fieldContribution, ha]
    · have ha' : f.active = true := by simpa using ha
      unfold fieldContribution
      rw [ha']
      simp only [Bool.true_eq_false, if_false]
      rw [if_neg (by simpa [fieldDistSq] using h)]
  · intro ha h1 h2 hsq hpos
    have hne : rsqrt (fieldDistSq f p) ≠ 0 := ne_of_gt hpos
    have hq0 : (0:ℚ) < fieldDistSq f p := lt_trans (by norm_num) h2
    have hqne : fieldDistSq f p ≠ 0 := ne_of_gt hq0
    have hq : fieldDistSq f p
        = (f.x - p.x) * (f.x - p.x) + (f.y - p.y) * (f.y - p.y) := rfl
    have hC : fieldContribution rsqrt f p
        = (f.strength / fieldDistSq f p * (f.x - p.x),
           f.strength / fieldDistSq f p * (f.y - p.y)) := by
      unfold fieldContribution
      rw [ha]
      simp only [Bool.true_eq_false, if_false]
      have hcond : (f.x - p.x) * (f.x - p.x) + (f.y - p.y) * (f.y - p.y)
            < f.radius * f.radius ∧
          (1:ℚ)/100 < (f.x - p.x) * (f.x - p.x) + (f.y - p.y) * (f.y - p.y) :=
        ⟨h1, h2⟩
      rw [if_pos hcond, ← hq, Prod.mk.injEq]
      constructor <;> (rw [div_mul_div_comm, hsq]; ring)
    refine ⟨hC, ?_, ?_⟩
    · rw [hC]
      show f.strength / fieldDistSq f p * (f.x - p.x) * (f.x - p.x)
          + f.strength / fieldDistSq f p * (f.y - p.y) * (f.y - p.y) = f.strength
      rw [hq] at hqne ⊢
      field_simp
      ring
    · rw [hC]
      show (f.strength / fieldDistSq f p * (f.x - p.x)) ^ 2
          + (f.strength / fieldDistSq f p * (f.y - p.y)) ^ 2
          = f.strength ^ 2 / fieldDistSq f p
      rw [hq] at hqne ⊢
      field_simp
      ring

/-- Force field of the repulsion scenario: at the origin, radius 50,
strength -100, active by default. -/
def c4F : ForceField := { x := 0, y := 0, radius := 50, strength := -100 }

/-- Particle of the repulsion scenario: stationary at (10, 0). -/
def c4P : Particle := { x := 10, y := 0, lifetime := 100, active := true }

/-- Exact square root oracle for the scenario distance 10. -/
def c4rsqrt : ℚ → ℚ := fun q => if q = 100 then 10 else 0

/-- Witness instantiation of c4_field_force: at squared distance 100 the
field contributes exactly (10, 0) = (strength/dist²)·(dx, dy). -/
theorem c4_field_force_witness : fieldContribution c4rsqrt c4F c4P = (10, 0) := by
  have h := ((c4_field_force c4rsqrt c4F c4P).2.2 rfl
    (by norm_num [fieldDistSq, c4F, c4P])
    (by norm_num [fieldDistSq, c4F, c4P])
    (by norm_num [fieldDistSq, c4F, c4P, c4rsqrt])
    (by norm_num [fieldDistSq, c4F, c4P, c4rsqrt])).1
  rw [h]
  norm_num [fieldDistSq, c4F, c4P]

/-- Claim C8: for every pool size and thread count N ≥ 1 the worker index
ranges of workerFunction stay inside the pool and partition it exactly:
each pool index lies in precisely one worker's range. -/
theorem c8_worker_partition (total N : ℕ) (hN : 1 ≤ N) :
    (∀ id, id < N → workerEnd id N total ≤ total) ∧
    (∀ i, i < total → ∃! id, id < N ∧
        workerStart id N total ≤ i ∧ i < workerEnd id N total) := by
  constructor
  · intro id hid
    unfold workerEnd
    by_cases h : id = N - 1
    · simp [h]
    · rw [if_neg h]
      calc (id + 1) * (total / N) ≤ N * (total / N) :=
            Nat.mul_le_mul_right _ (by omega)
        _ ≤ total := by
            rw [Nat.mul_comm]
            exact Nat.div_mul_le_self total N
  · intro i hi
    by_cases hq : total / N = 0
    · refine ⟨N - 1, ⟨by omega, ?_, ?_⟩, ?_⟩
      · unfold workerStart
        rw [hq]
        omega
      · unfold workerEnd
        rw [if_pos rfl]
        exact hi
      · intro y hy
        obtain ⟨hy1, hy2, hy3⟩ := hy
        by_contra hne
        unfold workerEnd at hy3
        rw [if_neg hne, hq] at hy3
        omega
    · have hq' : 0 < total / N := Nat.pos_of_ne_zero hq
      by_cases hc : i / (total / N) < N - 1
      · refine ⟨i / (total / N), ⟨by omega, ?_, ?_⟩, ?_⟩
        · unfold workerStart
          exact Nat.div_mul_le_self i (total / N)
        · unfold workerEnd
          rw [if_neg (by omega)]
          exact (Nat.div_lt_iff_lt_mul hq').1 (Nat.lt_succ_self _)
        · intro y hy
          obtain ⟨hy1, hy2, hy3⟩ := hy
          unfold workerStart at hy2
          unfold workerEnd at hy3
          by_cases hy4 : y = N - 1
          · exfalso
            rw [hy4] at hy2
            have : N - 1 ≤ i / (total / N) :=
              (Nat.le_div_iff_mul_le hq').2 hy2
            omega
          · rw [if_neg hy4] at hy3
            exact (Nat.div_eq_of_lt_le hy2 hy3).symm
      · refine ⟨N - 1, ⟨by omega, ?_, ?_⟩, ?_⟩
        · unfold workerStart
          have h1 : N - 1 ≤ i / (total / N) := by omega
          exact (Nat.le_div_iff_mul_le hq').1 h1
        · unfold workerEnd
          rw [if_pos rfl]
          exact hi
        · intro y hy
          obtain ⟨hy1, hy2, hy3⟩ := hy
          by_cases hy4 : y = N - 1
          · exact hy4
          · exfalso
            unfold workerStart at hy2
            unfold workerEnd at hy3
            rw [if_neg hy4] at hy3
            have : i / (total / N) = y := Nat.div_eq_of_lt_le hy2 hy3
            omega

/-- Witness instantiation of c8_worker_partition: pool size 10, three
workers, index 7 lies in exactly one worker range. -/
theorem c8_worker_partition_witness :
    ∃! id, id < 3 ∧ workerStart id 3 10 ≤ 7 ∧ 7 < workerEnd id 3 10 :=
  (c8_worker_partition 10 3 (by norm_num)).2 7 (by norm_num)

/-- Modelled from the spec: the per-frame phase order that claim C2
asserts — emitters first, then an unconditional grid rebuild from the
then-active particles, then the force+integrate pass. Compare with
ParticleSystem.update, which rebuilds the grid (only when interaction is
enabled) before the emitters run. -/
def claimOrderUpdate (tcos tsin rsqrt : ℚ → ℚ) (dt : ℚ) (st : ParticleSystem) :
    ParticleSystem :=
  let st1 := ParticleSystem.emitPhase tcos tsin dt st
  let st2 := { st1 with grid := rebuildGrid st1.gridW st1.gridH st1.particles }
  ParticleSystem.workerPhase rsqrt dt st2

/-- Point emitter at (40, 40) with rate 1 used by the C2 scenario. -/
def c2Emitter : Emitter :=
  { settings := { x := 40, y := 40, rate := 1, type := EmitterType.Point,
                  particle_lifetime := 5 } }

/-- C2 scenario: a one-slot pool (slot inactive), one Point emitter,
interaction enabled, 4×4 grid (60×60 screen). -/
def c2Sys : ParticleSystem :=
  { particles := [{}],
    emitters := [c2Emitter],
    force_fields := [],
    gridW := 4, gridH := 4,
    grid := List.replicate 16 [],
    interaction := true,
    threadCount := 1 }

/-- In the C2 scenario the code's update leaves the grid empty: the grid
is rebuilt before emission, from a pool that is entirely inactive. -/
theorem c2CodeGrid : (ParticleSystem.update zeroFun zeroFun zeroFun 1 c2Sys).grid
    = List.replicate 16 [] := by
  have h := (update_preserves zeroFun zeroFun zeroFun 1 c2Sys).2.2.2.2.2.2
  rw [h]
  norm_num [c2Sys, rebuildGrid, insertAll, insertIntoGrid]

/-- Under the claim's phase order the grid would hold the particle emitted
this frame: cell (1,1) of the 4×4 grid holds index 0. -/
theorem c2ClaimGrid : (claimOrderUpdate zeroFun zeroFun zeroFun 1 c2Sys).grid
    = (List.replicate 16 []).set 5 [0] := by
  unfold claimOrderUpdate
  have hw := (procFold_preserves zeroFun 1
    (List.range (ParticleSystem.emitPhase zeroFun zeroFun 1 c2Sys).particles.length)
    { ParticleSystem.emitPhase zeroFun zeroFun 1 c2Sys with
      grid := rebuildGrid (ParticleSystem.emitPhase zeroFun zeroFun 1 c2Sys).gridW
        (ParticleSystem.emitPhase zeroFun zeroFun 1 c2Sys).gridH
        (ParticleSystem.emitPhase zeroFun zeroFun 1 c2Sys).particles }).2.2.1
  rw [ParticleSystem.workerPhase] at *
  rw [hw]
  have hpart : (ParticleSystem.emitPhase zeroFun zeroFun 1 c2Sys).particles
      = [{ x := 40, y := 40, lifetime := 5, max_lifetime := 5,
           active := true : Particle }] := by
    norm_num [ParticleSystem.emitPhase, c2Sys, c2Emitter, Emitter.update,
      Emitter.emitLoop, Emitter.emitScan, Emitter.emitParticle, ctrunc, zeroFun]
  have hW : (ParticleSystem.emitPhase zeroFun zeroFun 1 c2Sys).gridW = 4 :=
    (emitPhase_preserves zeroFun zeroFun 1 c2Sys).2.2.2.1
  have hH : (ParticleSystem.emitPhase zeroFun zeroFun 1 c2Sys).gridH = 4 :=
    (emitPhase_preserves zeroFun zeroFun 1 c2Sys).2.2.2.2.1
  rw [hpart, hW, hH]
  norm_num [rebuildGrid, insertAll, insertIntoGrid, cellCoord, ctrunc,
    getCellIndex, CELL_SIZE, MAX_PARTICLES_PER_CELL]
  rfl

/-- Counterexample to claim C2: on the C2 scenario the code's update and
the claim's emit-first-then-rebuild order produce different grids — the
code's grid misses the particle emitted this frame, so the phases are not
in the claimed order. -/
theorem c2_counterexample :
    (ParticleSystem.update zeroFun zeroFun zeroFun 1 c2Sys).grid
      ≠ (claimOrderUpdate zeroFun zeroFun zeroFun 1 c2Sys).grid := by
  rw [c2CodeGrid, c2ClaimGrid]
  decide

/-- Membership in a cell after one grid insertion comes either from the
previous grid or is the inserted index at its own (clamped) cell. -/
theorem insertIntoGrid_mem (W H : ℕ) (g : List (List ℕ)) (ip : ℕ × Particle)
    (k : ℕ) (cell : List ℕ) (j : ℕ)
    (hk : (insertIntoGrid W H g ip).get? k = some cell) (hj : j ∈ cell) :
    (∃ cell0, g.get? k = some cell0 ∧ j ∈ cell0) ∨
    (j = ip.1 ∧ ip.2.active = true ∧
      k = getCellIndex W H (cellCoord ip.2.x) (cellCoord ip.2.y)) := by
  unfold insertIntoGrid at hk
  by_cases ha : ip.2.active = true
  · rw [if_pos ha] at hk
    cases hg : g.get? (getCellIndex W H (cellCoord ip.2.x) (cellCoord ip.2.y)) with
    | none => simp only [hg] at hk; left; exact ⟨cell, hk, hj⟩
    | some cell1 =>
      simp only [hg] at hk
      by_cases hlen : cell1.length < MAX_PARTICLES_PER_CELL
      · rw [if_pos hlen] at hk
        by_cases hkeq : k = getCellIndex W H (cellCoord ip.2.x) (cellCoord ip.2.y)
        · rw [hkeq, List.get?_set_eq, hg] at hk
          simp only [Option.map_eq_map, Option.map_some'] at hk
          injection hk with hcell
          rw [← hcell] at hj
          cases List.mem_append.1 hj with
          | inl h => left; exact ⟨cell1, by rw [hkeq]; exact hg, h⟩
          | inr h =>
            right
            exact ⟨List.mem_singleton.1 h, ha, hkeq⟩
        · rw [List.get?_set_ne _ _ (fun hx => hkeq hx.symm)] at hk
          left; exact ⟨cell, hk, hj⟩
      · rw [if_neg hlen] at hk
        left; exact ⟨cell, hk, hj⟩
  · rw [if_neg ha] at hk
    left; exact ⟨cell, hk, hj⟩

/-- Membership in a cell after the indexed insertion loop comes either
from the initial grid or from an inserted active particle at its own
(clamped) cell. -/
theorem insertAll_mem (W H : ℕ) :
    ∀ (ps : List Particle) (i0 : ℕ) (g : List (List ℕ)) (k : ℕ)
      (cell : List ℕ) (j : ℕ),
      (insertAll W H i0 ps g).get? k = some cell → j ∈ cell →
      (∃ cell0, g.get? k = some cell0 ∧ j ∈ cell0) ∨
      (∃ p, i0 ≤ j ∧ ps.get? (j - i0) = some p ∧ p.active = true ∧
        k = getCellIndex W H (cellCoord p.x) (cellCoord p.y)) := by
  intro ps
  induction ps with
  | nil => intro i0 g k cell j hk hj; left; exact ⟨cell, hk, hj⟩
  | cons p rest ih =>
    intro i0 g k cell j hk hj
    cases ih (i0 + 1) (insertIntoGrid W H g (i0, p)) k cell j hk hj with
    | inr h =>
      obtain ⟨p', h1, h2, h3, h4⟩ := h
      right
      refine ⟨p', by omega, ?_, h3, h4⟩
      have hidx : j - i0 = (j - (i0 + 1)) + 1 := by omega
      rw [hidx, List.get?_cons_succ]
      exact h2
    | inl h =>
      obtain ⟨cell0, hc0, hj0⟩ := h
      cases insertIntoGrid_mem W H g (i0, p) k cell0 j hc0 hj0 with
      | inl h' => left; exact h'
      | inr h' =>
        obtain ⟨he, ha, hk'⟩ := h'
        right
        refine ⟨p, by omega, ?_, ha, hk'⟩
        have : j - i0 = 0 := by omega
        rw [this]
        rfl

/-- Every index stored anywhere in the rebuilt grid belongs to an active
particle of the pool, stored at that particle's own (clamped) cell. -/
theorem rebuildGrid_mem (W H : ℕ) (ps : List Particle) (k : ℕ)
    (cell : List ℕ) (j : ℕ)
    (hk : (rebuildGrid W H ps).get? k = some cell) (hj : j ∈ cell) :
    ∃ p, ps.get? j = some p ∧ p.active = true ∧
      k = getCellIndex W H (cellCoord p.x) (cellCoord p.y) := by
  cases insertAll_mem W H ps 0 (List.replicate (W * H) []) k cell j hk hj with
  | inl h =>
    obtain ⟨cell0, hc, hjc⟩ := h
    rw [List.get?_eq_getElem?, List.getElem?_replicate] at hc
    by_cases hlt : k < W * H
    · rw [if_pos hlt] at hc
      injection hc with hc2
      rw [← hc2] at hjc
      cases hjc
    · rw [if_neg hlt] at hc
      cases hc
  | inr h =>
    obtain ⟨p, _, h2, h3, h4⟩ := h
    rw [Nat.sub_zero] at h2
    exact ⟨p, h2, h3, h4⟩

/-- Amended C2: update rebuilds the grid before emission (and only when
particle interaction is enabled); consequently the grid read by the worker
pass is exactly the rebuild of the pre-call pool — entries from earlier
frames never persist — and every stored index belongs to a particle that
was active at the start of the call (particles emitted this frame are
absent). -/
theorem c2_grid_fresh (tcos tsin rsqrt : ℚ → ℚ) (dt : ℚ)
    (st : ParticleSystem) (h : st.interaction = true) :
    (ParticleSystem.update tcos tsin rsqrt dt st).grid
        = rebuildGrid st.gridW st.gridH st.particles ∧
    ∀ k cell j, (ParticleSystem.update tcos tsin rsqrt dt st).grid.get? k = some cell →
      j ∈ cell → ∃ p, st.particles.get? j = some p ∧ p.active = true := by
  have hg := (update_preserves tcos tsin rsqrt dt st).2.2.2.2.2.2
  rw [h, if_pos rfl] at hg
  refine ⟨hg, ?_⟩
  intro k cell j hk hj
  rw [hg] at hk
  obtain ⟨p, h1, h2, _⟩ := rebuildGrid_mem st.gridW st.gridH st.particles k cell j hk hj
  exact ⟨p, h1, h2⟩

/-- Witness instantiation of c2_grid_fresh on the C2 scenario. -/
theorem c2_grid_fresh_witness :
    (ParticleSystem.update zeroFun zeroFun zeroFun 1 c2Sys).grid
      = rebuildGrid c2Sys.gridW c2Sys.gridH c2Sys.particles :=
  (c2_grid_fresh zeroFun zeroFun zeroFun 1 c2Sys rfl).1

/-- Evaluation helper: Int.toNat on the literal 0. -/
theorem toNat0 : (0 : ℤ).toNat = 0 := rfl

/-- Evaluation helper: Int.toNat on the literal 1. -/
theorem toNat1 : (1 : ℤ).toNat = 1 := rfl

/-- Evaluation helper: Int.toNat on the literal 2. -/
theorem toNat2 : (2 : ℤ).toNat = 2 := rfl

/-- Evaluation helper: Int.toNat on the literal 3. -/
theorem toNat3 : (3 : ℤ).toNat = 3 := rfl

/-- C5 scenario: one stationary active particle at (10, 0), one force
field at the origin with radius 50 and strength -100, no emitters,
interaction enabled, 2×2 grid. -/
def c5Sys : ParticleSystem :=
  { particles := [c4P],
    emitters := [],
    force_fields := [c4F],
    gridW := 2, gridH := 2,
    grid := List.replicate 4 [],
    interaction := true,
    threadCount := 1 }

/-- Counterexample to claim C5: in the scenario (field at origin,
radius 50, strength -100, particle at (10,0), dt = 0.05, exact square
root at 100) the particle's velocity x-component after one update is
+1/2 — magnitude |strength|/10 × dt as claimed, but positive, not
negative: repulsion from a field at the origin pushes the particle at
(10,0) toward +x. -/
theorem c5_counterexample :
    ((ParticleSystem.update zeroFun zeroFun c4rsqrt (1/20) c5Sys).particles.get?
        0).map Particle.vx = some (1/2) ∧ ¬ ((1:ℚ)/2 < 0) := by
  constructor
  · norm_num [ParticleSystem.update, ParticleSystem.emitPhase,
      ParticleSystem.workerPhase, ParticleSystem.processParticle,
      ParticleSystem.applyGlobalForces, fieldContribution, repulsionContribution,
      neighborIndices, neighborOffsets, getCellIndex, cellCoord, ctrunc,
      CELL_SIZE, MAX_PARTICLES_PER_CELL, rebuildGrid, insertAll, insertIntoGrid,
      Particle.applyForce, Particle.update, c5Sys, c4P, c4F, c4rsqrt, zeroFun,
      List.range, List.range.loop, List.foldl_cons, List.foldl_nil,
      List.append_nil, List.nil_append, List.cons_append, Option.getD,
      List.replicate_succ, List.replicate_zero,
      List.set_cons_zero, List.set_cons_succ, List.getElem?_cons_zero,
      List.getElem?_cons_succ, toNat0, toNat1, toNat2, toNat3]
  · norm_num

/-- Amended C5: in the scenario the particle's velocity x-component after
one update(dt) becomes positive (pushed away from the field, which lies in
the -x direction), with value exactly (|strength|/10)×dt = 10·dt. -/
theorem c5_field_repulsion (rsqrt : ℚ → ℚ) (dt : ℚ) (hdt : 0 < dt)
    (hs : rsqrt 100 = 10) :
    ((ParticleSystem.update zeroFun zeroFun rsqrt dt c5Sys).particles.get?
        0).map Particle.vx = some (100 / 10 * dt) ∧
    0 < 100 / 10 * dt := by
  constructor
  · norm_num [ParticleSystem.update, ParticleSystem.emitPhase,
      ParticleSystem.workerPhase, ParticleSystem.processParticle,
      ParticleSystem.applyGlobalForces, fieldContribution, repulsionContribution,
      neighborIndices, neighborOffsets, getCellIndex, cellCoord, ctrunc,
      CELL_SIZE, MAX_PARTICLES_PER_CELL, rebuildGrid, insertAll, insertIntoGrid,
      Particle.applyForce, Particle.update, c5Sys, c4P, c4F, hs, zeroFun,
      List.range, List.range.loop, List.foldl_cons, List.foldl_nil,
      List.append_nil, List.nil_append, List.cons_append, Option.getD,
      List.replicate_succ, List.replicate_zero,
      List.set_cons_zero, List.set_cons_succ, List.getElem?_cons_zero,
      List.getElem?_cons_succ, toNat0, toNat1, toNat2, toNat3]
  · linarith

/-- Witness instantiation of c5_field_repulsion at dt = 1/20 with the
exact square root oracle. -/
theorem c5_field_repulsion_witness :
    ((ParticleSystem.update zeroFun zeroFun c4rsqrt (1/20) c5Sys).particles.get?
        0).map Particle.vx = some (100 / 10 * (1/20)) :=
  (c5_field_repulsion c4rsqrt (1/20) (by norm_num) (by norm_num [c4rsqrt])).1

/-- Particle at (40, 40), used by the C6 cell-overflow scenario. -/
def c6P : Particle := { x := 40, y := 40, lifetime := 1, active := true }

/-- Pool of 65 active particles stacked at (40, 40): one more than the
64-index capacity of a grid cell. -/
def c6Ps : List Particle := List.replicate 65 c6P

/-- The (clamped) grid cell of position (40, 40) on the 4×4 grid is 5. -/
theorem c6cell : getCellIndex 4 4 (cellCoord (40:ℚ)) (cellCoord (40:ℚ)) = 5 := by
  norm_num [getCellIndex, cellCoord, ctrunc, CELL_SIZE]
  rfl

/-- The indexed insertion loop splits over list append. -/
theorem insertAll_append (W H : ℕ) :
    ∀ (l1 l2 : List Particle) (i0 : ℕ) (g : List (List ℕ)),
      insertAll W H i0 (l1 ++ l2) g
        = insertAll W H (i0 + l1.length) l2 (insertAll W H i0 l1 g) := by
  intro l1
  induction l1 with
  | nil => intro l2 i0 g; simp [insertAll]
  | cons p rest ih =>
    intro l2 i0 g
    show insertAll W H (i0 + 1) (rest ++ l2) (insertIntoGrid W H g (i0, p))
        = insertAll W H (i0 + (rest.length + 1)) l2
            (insertAll W H (i0 + 1) rest (insertIntoGrid W H g (i0, p)))
    rw [ih]
    congr 1
    omega

/-- Inserting n ≤ 64 - |c| copies of the (40, 40) particle starting at
index i0 appends the indices i0, ..., i0+n-1 to cell 5. -/
theorem c6insert (n : ℕ) :
    ∀ (i0 : ℕ) (c : List ℕ), c.length + n ≤ 64 →
      insertAll 4 4 i0 (List.replicate n c6P) ((List.replicate 16 []).set 5 c)
        = (List.replicate 16 []).set 5 (c ++ (List.range n).map (· + i0)) := by
  induction n with
  | zero => intro i0 c _; simp [insertAll]
  | succ n ih =>
    intro i0 c hlen
    have hclen : c.length < 64 := by omega
    have hstep : insertIntoGrid 4 4 ((List.replicate 16 []).set 5 c) (i0, c6P)
        = (List.replicate 16 []).set 5 (c ++ [i0]) := by
      unfold insertIntoGrid
      rw [if_pos (show c6P.active = true from rfl)]
      have hc : ((List.replicate 16 []).set 5 c).get?
          (getCellIndex 4 4 (cellCoord c6P.x) (cellCoord c6P.y)) = some c := by
        rw [show (c6P.x : ℚ) = 40 from rfl, show (c6P.y : ℚ) = 40 from rfl, c6cell,
          List.get?_set_eq]
        norm_num [List.getElem?_replicate]
      simp only [hc]
      rw [if_pos (show c.length < MAX_PARTICLES_PER_CELL from hclen)]
      rw [show (c6P.x : ℚ) = 40 from rfl, show (c6P.y : ℚ) = 40 from rfl, c6cell,
        List.set_set]
    show insertAll 4 4 (i0 + 1) (List.replicate n c6P)
        (insertIntoGrid 4 4 ((List.replicate 16 []).set 5 c) (i0, c6P)) = _
    rw [hstep, ih (i0 + 1) (c ++ [i0]) (by simp; omega)]
    congr 1
    rw [List.append_assoc]
    congr 1
    rw [List.range_succ_eq_map, List.map_cons, List.map_map]
    simp only [Nat.zero_add, List.singleton_append]
    have hfun : ((fun x => x + i0) ∘ Nat.succ) = fun x : ℕ => x + (i0 + 1) := by
      funext x
      simp [Function.comp]
      omega
    rw [hfun]

/-- Rebuilding the 4×4 grid from the 65 stacked particles stores only the
first 64 indices in cell 5: the 65th (index 64) is silently dropped by the
cell capacity bound. -/
theorem c6grid : rebuildGrid 4 4 c6Ps
    = (List.replicate 16 []).set 5 (List.range 64) := by
  have hsplit : c6Ps = List.replicate 64 c6P ++ [c6P] := List.replicate_succ' 64 c6P
  rw [rebuildGrid, hsplit, insertAll_append]
  have hid : (List.replicate 16 ([] : List ℕ)) = (List.replicate 16 []).set 5 [] := by
    decide
  rw [hid, c6insert 64 0 [] (by simp)]
  have hmap : ([] : List ℕ) ++ (List.range 64).map (· + 0) = List.range 64 := by simp
  rw [hmap]
  show insertIntoGrid 4 4 ((List.replicate 16 []).set 5 (List.range 64)) (64, c6P) = _
  unfold insertIntoGrid
  rw [if_pos (show c6P.active = true from rfl)]
  have hc : ((List.replicate 16 []).set 5 (List.range 64)).get?
      (getCellIndex 4 4 (cellCoord c6P.x) (cellCoord c6P.y)) = some (List.range 64) := by
    rw [show (c6P.x : ℚ) = 40 from rfl, show (c6P.y : ℚ) = 40 from rfl, c6cell,
      List.get?_set_eq]
    norm_num [List.getElem?_replicate]
  simp only [hc]
  rw [if_neg (by norm_num [MAX_PARTICLES_PER_CELL]), List.set_set]

/-- Evaluation helper: Int.toNat on the literal 4. -/
theorem toNat4 : (4 : ℤ).toNat = 4 := rfl

/-- Evaluation helper: Int.toNat on the literal 5. -/
theorem toNat5 : (5 : ℤ).toNat = 5 := rfl

/-- Evaluation helper: Int.toNat on the literal 6. -/
theorem toNat6 : (6 : ℤ).toNat = 6 := rfl

/-- Evaluation helper: Int.toNat on the literal 8. -/
theorem toNat8 : (8 : ℤ).toNat = 8 := rfl

/-- Evaluation helper: Int.toNat on the literal 9. -/
theorem toNat9 : (9 : ℤ).toNat = 9 := rfl

/-- Evaluation helper: Int.toNat on the literal 10. -/
theorem toNat10 : (10 : ℤ).toNat = 10 := rfl

/-- Index 64 is absent from the whole 3×3 neighborhood of (40, 40) in the
overflowed grid. -/
theorem c6missing :
    64 ∉ neighborIndices 4 4 ((List.replicate 16 []).set 5 (List.range 64)) c6P := by
  norm_num [neighborIndices, neighborOffsets, cellCoord, ctrunc, CELL_SIZE,
    getCellIndex, c6P, List.foldl_cons, List.foldl_nil, List.get?_eq_getElem?,
    List.getElem?_set, List.getElem?_replicate, Option.getD,
    toNat0, toNat1, toNat2, toNat3, toNat4, toNat5, toNat6, toNat8, toNat9, toNat10,
    List.mem_range]

/-- Counterexample to claim C6: 65 active particles stacked at (40, 40);
particle 64 is active and at distance 0 from particle 0 (well within the
interaction radius 15), yet after the grid rebuild its index is not in the
3×3 neighborhood of particle 0 — the cell capacity bound drops it, a false
negative. -/
theorem c6_counterexample :
    c6Ps.get? 0 = some c6P ∧ c6Ps.get? 64 = some c6P ∧ c6P.active = true ∧
    (c6P.x - c6P.x) * (c6P.x - c6P.x) + (c6P.y - c6P.y) * (c6P.y - c6P.y)
        ≤ 15 * 15 ∧
    64 ∉ neighborIndices 4 4 (rebuildGrid 4 4 c6Ps) c6P := by
  refine ⟨rfl, rfl, rfl, by norm_num, ?_⟩
  rw [c6grid]
  exact c6missing

/-- C-truncation moves by at most one cell when the argument moves by less
than one. -/
theorem ctrunc_sub_le (a b : ℚ) (h1 : a - b < 1) : ctrunc a ≤ ctrunc b + 1 := by
  unfold ctrunc
  by_cases ha : 0 ≤ a <;> by_cases hb : 0 ≤ b
  · rw [if_pos ha, if_pos hb]
    have hab : a ≤ b + 1 := by linarith
    calc ⌊a⌋ ≤ ⌊b + 1⌋ := Int.floor_le_floor hab
      _ = ⌊b⌋ + 1 := Int.floor_add_one b
  · rw [if_pos ha, if_neg hb]
    push_neg at hb
    have hfa : ⌊a⌋ = 0 := by
      rw [Int.floor_eq_zero_iff, Set.mem_Ico]
      exact ⟨ha, by linarith⟩
    have hfb : ⌊-b⌋ = 0 := by
      rw [Int.floor_eq_zero_iff, Set.mem_Ico]
      constructor
      · linarith
      · linarith
    rw [hfa, hfb]
    norm_num
  · rw [if_neg ha, if_pos hb]
    push_neg at ha
    have h2 : 0 ≤ ⌊b⌋ := Int.floor_nonneg.2 hb
    have h3 : 0 ≤ ⌊-a⌋ := Int.floor_nonneg.2 (by linarith)
    omega
  · rw [if_neg ha, if_neg hb]
    push_neg at ha hb
    have hab : -b ≤ -a + 1 := by linarith
    have h3 : ⌊-b⌋ ≤ ⌊-a⌋ + 1 :=
      calc ⌊-b⌋ ≤ ⌊-a + 1⌋ := Int.floor_le_floor hab
        _ = ⌊-a⌋ + 1 := Int.floor_add_one _
    omega

/-- Two-sided cell-coordinate bound from a two-sided argument bound. -/
theorem ctrunc_diff (a b : ℚ) (h1 : a - b < 1) (h2 : b - a < 1) :
    ctrunc b - 1 ≤ ctrunc a ∧ ctrunc a ≤ ctrunc b + 1 :=
  ⟨by have := ctrunc_sub_le b a h2; omega, ctrunc_sub_le a b h1⟩

/-- Membership in an append-accumulating fold follows from membership in
the seed or in the image of one list element. -/
theorem mem_foldl_append {α β : Type} (f : β → List α) (a : α) :
    ∀ (l : List β) (init : List α),
      (a ∈ init ∨ ∃ o ∈ l, a ∈ f o) →
      a ∈ l.foldl (fun acc o => acc ++ f o) init := by
  intro l
  induction l with
  | nil =>
    intro init h
    rcases h with h | ⟨o, ho, _⟩
    · exact h
    · simp at ho
  | cons o rest ih =>
    intro init h
    show a ∈ rest.foldl (fun acc o => acc ++ f o) (init ++ f o)
    rcases h with h | ⟨o', ho', ha'⟩
    · exact ih _ (Or.inl (List.mem_append_left _ h))
    · rcases List.mem_cons.1 ho' with heq | hmem
      · rw [heq] at ha'
        exact ih _ (Or.inl (List.mem_append_right _ ha'))
      · exact ih _ (Or.inr ⟨o', hmem, ha'⟩)

/-- Amended C6: the 3×3 neighborhood query has no false negatives among
the particles actually stored in the grid — every other active particle
within the interaction radius 15 whose index survived the cell capacity
bound appears in the query result (false positives beyond the radius are
still possible and filtered by exact distance downstream). -/
theorem c6_neighbor_soundness (W H : ℕ) (ps : List Particle) (i j : ℕ)
    (p q : Particle)
    (hp : ps.get? i = some p) (hpa : p.active = true)
    (hq : ps.get? j = some q) (hqa : q.active = true)
    (hstored : ∃ k cell, (rebuildGrid W H ps).get? k = some cell ∧ j ∈ cell)
    (hdist : (p.x - q.x) * (p.x - q.x) + (p.y - q.y) * (p.y - q.y) ≤ 15 * 15) :
    j ∈ neighborIndices W H (rebuildGrid W H ps) p := by
  obtain ⟨k, cell, hk, hj⟩ := hstored
  obtain ⟨q', hq', hqa', hkq⟩ := rebuildGrid_mem W H ps k cell j hk hj
  rw [hq] at hq'
  injection hq' with hq2
  rw [← hq2] at hkq
  have hxsq : (p.x - q.x) * (p.x - q.x) ≤ 225 := by
    nlinarith [mul_self_nonneg (p.y - q.y)]
  have hysq : (p.y - q.y) * (p.y - q.y) ≤ 225 := by
    nlinarith [mul_self_nonneg (p.x - q.x)]
  have hx1 : p.x - q.x ≤ 15 := by nlinarith
  have hx2 : -15 ≤ p.x - q.x := by nlinarith
  have hy1 : p.y - q.y ≤ 15 := by nlinarith
  have hy2 : -15 ≤ p.y - q.y := by nlinarith
  have hcx : cellCoord p.x - 1 ≤ cellCoord q.x ∧
      cellCoord q.x ≤ cellCoord p.x + 1 := by
    unfold cellCoord CELL_SIZE
    exact ctrunc_diff (q.x / 30) (p.x / 30) (by linarith) (by linarith)
  have hcy : cellCoord p.y - 1 ≤ cellCoord q.y ∧
      cellCoord q.y ≤ cellCoord p.y + 1 := by
    unfold cellCoord CELL_SIZE
    exact ctrunc_diff (q.y / 30) (p.y / 30) (by linarith) (by linarith)
  have hdx : cellCoord q.x - cellCoord p.x = -1 ∨
      cellCoord q.x - cellCoord p.x = 0 ∨ cellCoord q.x - cellCoord p.x = 1 := by
    omega
  have hdy : cellCoord q.y - cellCoord p.y = -1 ∨
      cellCoord q.y - cellCoord p.y = 0 ∨ cellCoord q.y - cellCoord p.y = 1 := by
    omega
  unfold neighborIndices
  apply mem_foldl_append
  right
  refine ⟨(cellCoord q.y - cellCoord p.y, cellCoord q.x - cellCoord p.x), ?_, ?_⟩
  · rcases hdx with h | h | h <;> rcases hdy with h' | h' | h' <;>
      rw [h, h'] <;> decide
  · have e1 : cellCoord p.x + (cellCoord q.y - cellCoord p.y,
        cellCoord q.x - cellCoord p.x).2 = cellCoord q.x := by
      simp
    have e2 : cellCoord p.y + (cellCoord q.y - cellCoord p.y,
        cellCoord q.x - cellCoord p.x).1 = cellCoord q.y := by
      simp
    rw [e1, e2, ← hkq, hk]
    simpa using hj

/-- Witness instantiation of c6_neighbor_soundness: two stacked particles
at (40, 40); the second one is stored in cell 5 and found by the query. -/
theorem c6_neighbor_soundness_witness :
    1 ∈ neighborIndices 4 4 (rebuildGrid 4 4 [c6P, c6P]) c6P := by
  refine c6_neighbor_soundness 4 4 [c6P, c6P] 0 1 c6P c6P rfl rfl rfl rfl
    ⟨5, [0, 1], ?_, by norm_num⟩ (by norm_num)
  have h2 : ([c6P, c6P] : List Particle) = List.replicate 2 c6P := rfl
  have hid : (List.replicate 16 ([] : List ℕ)) = (List.replicate 16 []).set 5 [] := by
    decide
  rw [rebuildGrid, h2, hid, c6insert 2 0 [] (by simp)]
  rw [List.get?_set_eq]
  norm_num [List.getElem?_replicate]
  rfl
